import Mathlib

/-!
Verification development for the Live-Streaming signaling server
(`server.js`).  The server keeps a dictionary `rooms` mapping a room id to
`{ host, password, viewers }` and reacts to the socket.io events
`create-room`, `join-room`, `offer`, `answer`, `ice-candidate` and
`disconnect`.  Below, the mutable JavaScript state is embedded as an
explicit `ServerState` (an insertion-ordered association list of rooms and
one of live connections), each socket.io handler becomes a pure step
function `ServerState → ... → ServerState × List (Target × Msg)`, and
socket.io's delivery rule (`socket.emit` is a unicast to one socket,
`io.to(x).emit` reaches every socket that is a member of the room named
`x`, each socket being implicitly a member of the room named by its own
id) is embedded as `deliveredTo`.
-/

namespace LiveStream

/-- One entry of a room's `viewers` array: `{ id: socket.id, name }`. -/
structure ViewerEntry where
  id : String
  name : String
deriving DecidableEq

/-- One record of the `rooms` object:
`rooms[roomId] = { host: socketId, password: '...', viewers: [{id, name}] }`. -/
structure Room where
  host : String
  password : String
  viewers : List ViewerEntry
deriving DecidableEq

/-- The per-socket fields the handlers attach to the socket object.
`roomId`, `isHost` and `viewerName` start out absent (JavaScript
`undefined`), hence `Option`.  `sockRooms` is the list of socket.io rooms
this socket has joined via `socket.join` (its own-id room is implicit). -/
structure Conn where
  roomId : Option String
  isHost : Option Bool
  viewerName : Option String
  sockRooms : List String
deriving DecidableEq

/-- The whole mutable server state: the `rooms` dictionary and the set of
currently connected sockets with their attached fields.  Both are
insertion-ordered association lists, as JavaScript objects are. -/
structure ServerState where
  rooms : List (String × Room)
  conns : List (String × Conn)
deriving DecidableEq

/-- Property lookup in an association list (first matching key). -/
def lookupA {α : Type} : List (String × α) → String → Option α
  | [], _ => none
  | p :: l, k => if p.1 = k then some p.2 else lookupA l k

/-- Property assignment `obj[k] = v`: replaces the entry in place if the
key exists, otherwise appends it (JavaScript objects keep insertion
order). -/
def setA {α : Type} : List (String × α) → String → α → List (String × α)
  | [], k, v => [(k, v)]
  | p :: l, k, v => if p.1 = k then (k, v) :: l else p :: setA l k v

/-- Property deletion `delete obj[k]`. -/
def eraseA {α : Type} : List (String × α) → String → List (String × α)
  | [], _ => []
  | p :: l, k => if p.1 = k then eraseA l k else p :: eraseA l k

/-- In-place mutation of the value stored under `k`. -/
def updateA {α : Type} (l : List (String × α)) (k : String) (f : α → α) :
    List (String × α) :=
  l.map fun p => if p.1 = k then (p.1, f p.2) else p

/-- Messages the server emits. -/
inductive Msg where
  | roomCreated (roomId : String)
  | roomJoined (roomId : String)
  | viewerJoined (viewerId viewerName : String)
  | viewerLeft (viewerId viewerName : String)
  | hostDisconnected
  | offerMsg (payload fromId : String)
  | answerMsg (payload fromId : String)
  | iceMsg (candidate fromId : String)
  | errorMsg (message : String)
deriving DecidableEq

/-- Where an emission is addressed: `socket.emit` is a direct unicast to
one socket, `io.to(x).emit` is addressed to the socket.io room named `x`. -/
inductive Target where
  | direct (sid : String)
  | toRoom (rn : String)
deriving DecidableEq

/-- Payload of a `create-room` event: the client may send a bare string or
an object `{ roomId, password }` whose `password` property may be absent. -/
inductive CreateData where
  | str (s : String)
  | obj (roomId : String) (password : Option String)
deriving DecidableEq

/-- Payload of a `join-room` event: a bare string or an object
`{ roomId, name, password }` whose `name`/`password` may be absent. -/
inductive JoinData where
  | str (s : String)
  | obj (roomId : String) (nm : Option String) (password : Option String)
deriving DecidableEq

/-- The destructuring at the top of the create-room handler:
`const { roomId, password } = typeof data === 'string' ? { roomId: data, password: '' } : data;`
followed by the later `password || ''` (for a string `p`, `p || ''` is `p`
itself, and `undefined || ''` is `''`). -/
def createArgs : CreateData → String × String
  | .str s => (s, "")
  | .obj r p => (r, p.getD "")

/-- The destructuring at the top of the join-room handler:
`const { roomId, name = 'Viewer', password = '' } = typeof data === 'string' ? { roomId: data, name: 'Viewer', password: '' } : data;`. -/
def joinArgs : JoinData → String × String × String
  | .str s => (s, "Viewer", "")
  | .obj r n p => (r, n.getD "Viewer", p.getD "")

/-- `socket.join(rn)`: membership in a socket.io room is a set, joining
twice is a no-op. -/
def joinSockRoom (c : Conn) (rn : String) : Conn :=
  if rn ∈ c.sockRooms then c else { c with sockRooms := c.sockRooms ++ [rn] }

/-- The state right after the server starts: no rooms, no connections. -/
def initState : ServerState := ⟨[], []⟩

/-- A new socket connects: it is added to the registry with all attached
fields still `undefined` and no joined rooms. -/
def connectStep (s : ServerState) (sid : String) : ServerState :=
  { s with conns := s.conns ++ [(sid, ⟨none, none, none, []⟩)] }

/-- Body of the create-room handler after destructuring:
`rooms[roomId] = { host: socket.id, password: password || '', viewers: [] };`
then `socket.join(roomId); socket.roomId = roomId; socket.isHost = true;`
and finally `socket.emit('room-created', { roomId })`. -/
def createCore (s : ServerState) (sid roomId pw : String) :
    ServerState × List (Target × Msg) :=
  let s1 : ServerState := { s with rooms := setA s.rooms roomId ⟨sid, pw, []⟩ }
  let s2 : ServerState :=
    { s1 with
      conns := updateA s1.conns sid fun c =>
        { joinSockRoom c roomId with roomId := some roomId, isHost := some true } }
  (s2, [(Target.direct sid, Msg.roomCreated roomId)])

/-- The create-room handler. -/
def createRoomStep (s : ServerState) (sid : String) (d : CreateData) :
    ServerState × List (Target × Msg) :=
  createCore s sid (createArgs d).1 (createArgs d).2

/-- Body of the join-room handler after destructuring: reject when
`!rooms[roomId]`, reject when
`rooms[roomId].password && rooms[roomId].password !== password`, otherwise
push `{ id: socket.id, name }` onto the viewer array, `socket.join(roomId)`,
set the socket fields, notify the host through `io.to(hostId)` and answer
the caller with `room-joined`. -/
def joinCore (s : ServerState) (sid roomId nm pw : String) :
    ServerState × List (Target × Msg) :=
  match lookupA s.rooms roomId with
  | none => (s, [(Target.direct sid, Msg.errorMsg "Room does not exist")])
  | some room =>
    if room.password ≠ "" ∧ room.password ≠ pw then
      (s, [(Target.direct sid, Msg.errorMsg "Incorrect room password")])
    else
      let room' : Room := { room with viewers := room.viewers ++ [⟨sid, nm⟩] }
      let s1 : ServerState := { s with rooms := setA s.rooms roomId room' }
      let s2 : ServerState :=
        { s1 with
          conns := updateA s1.conns sid fun c =>
            { joinSockRoom c roomId with
              roomId := some roomId, isHost := some false, viewerName := some nm } }
      (s2, [(Target.toRoom room.host, Msg.viewerJoined sid nm),
            (Target.direct sid, Msg.roomJoined roomId)])

/-- The join-room handler. -/
def joinRoomStep (s : ServerState) (sid : String) (d : JoinData) :
    ServerState × List (Target × Msg) :=
  joinCore s sid (joinArgs d).1 (joinArgs d).2.1 (joinArgs d).2.2

/-- The offer handler: `io.to(data.to).emit('offer', { offer: data.offer, from: socket.id })`. -/
def offerStep (s : ServerState) (sid payload tgt : String) :
    ServerState × List (Target × Msg) :=
  (s, [(Target.toRoom tgt, Msg.offerMsg payload sid)])

/-- The answer handler: `io.to(data.to).emit('answer', { answer: data.answer, from: socket.id })`. -/
def answerStep (s : ServerState) (sid payload tgt : String) :
    ServerState × List (Target × Msg) :=
  (s, [(Target.toRoom tgt, Msg.answerMsg payload sid)])

/-- The ice-candidate handler:
`io.to(data.to).emit('ice-candidate', { candidate: data.candidate, from: socket.id })`. -/
def iceCandidateStep (s : ServerState) (sid payload tgt : String) :
    ServerState × List (Target × Msg) :=
  (s, [(Target.toRoom tgt, Msg.iceMsg payload sid)])

/-- The disconnect handler.  By the time socket.io fires `disconnect` the
socket has already left the registry and all of its rooms, so the
connection is removed first; the handler then reads the fields saved on
the socket object.  Note the JavaScript truthiness test
`if (roomId && rooms[roomId])`: an empty-string `roomId` is falsy, and the
whole clean-up is skipped for it.  `if (socket.isHost)` is true only for
the value `true` (absent counts as false), and `if (hostId)` is true only
for a non-empty host string. -/
def disconnectStep (s : ServerState) (sid : String) :
    ServerState × List (Target × Msg) :=
  match lookupA s.conns sid with
  | none => ({ s with conns := eraseA s.conns sid }, [])
  | some sk =>
    let s0 : ServerState := { s with conns := eraseA s.conns sid }
    match sk.roomId with
    | none => (s0, [])
    | some roomId =>
      if roomId = "" then (s0, [])
      else
        match lookupA s.rooms roomId with
        | none => (s0, [])
        | some room =>
          if sk.isHost = some true then
            ({ s0 with rooms := eraseA s.rooms roomId },
             [(Target.toRoom roomId, Msg.hostDisconnected)])
          else
            ({ s0 with
                rooms := setA s.rooms roomId
                  { room with viewers := room.viewers.filter fun v => v.id ≠ sid } },
             if room.host ≠ "" then
               [(Target.toRoom room.host, Msg.viewerLeft sid (sk.viewerName.getD ""))]
             else [])

/-- `true` when socket `sid` (with attached state `c`) is a member of the
socket.io room named `rn`: every socket is implicitly in the room named by
its own id, plus the rooms it has joined. -/
def memberOf (sid : String) (c : Conn) (rn : String) : Bool :=
  decide (sid = rn ∨ rn ∈ c.sockRooms)

/-- Whether connection `x` actually receives an emission with target `t`
in state `s`: a disconnected socket receives nothing, `socket.emit`
reaches exactly its socket, `io.to(rn).emit` reaches the members of room
`rn`. -/
def deliveredTo (s : ServerState) (t : Target) (x : String) : Bool :=
  match lookupA s.conns x with
  | none => false
  | some c =>
    match t with
    | Target.direct tid => decide (x = tid)
    | Target.toRoom rn => memberOf x c rn

/-- How many copies of message `m` connection `x` receives out of the
emission list `ems` in state `s`. -/
def recvCount (s : ServerState) (ems : List (Target × Msg)) (x : String)
    (m : Msg) : Nat :=
  (ems.filter fun e => decide (e.2 = m) && deliveredTo s e.1 x).length

/-- The states reachable from server start by any sequence of connect,
create-room, join-room and disconnect events (the three relay handlers
never touch the state).  Socket ids are server-assigned: fresh and
non-empty. -/
inductive Reachable : ServerState → Prop where
  | init : Reachable initState
  | connect (s : ServerState) (sid : String) :
      Reachable s → sid ≠ "" → lookupA s.conns sid = none →
      Reachable (connectStep s sid)
  | createRoom (s : ServerState) (sid : String) (d : CreateData) :
      Reachable s → (lookupA s.conns sid).isSome →
      Reachable (createRoomStep s sid d).1
  | joinRoom (s : ServerState) (sid : String) (d : JoinData) :
      Reachable s → (lookupA s.conns sid).isSome →
      Reachable (joinRoomStep s sid d).1
  | disconnect (s : ServerState) (sid : String) :
      Reachable s → Reachable (disconnectStep s sid).1

/-! ### Concrete traces used to instantiate and refute claims -/

/-- Socket `H` connects. -/
def sH : ServerState := connectStep initState "H"

/-- Sockets `H` and `V` connect. -/
def sHV : ServerState := connectStep sH "V"

/-- `H` then creates the open room `A`. -/
def sRoomA : ServerState := (createRoomStep sHV "H" (CreateData.obj "A" (some ""))).1

/-- ... and `V` joins room `A` under the display name `Ann`. -/
def sJoined : ServerState := (joinRoomStep sRoomA "V" (JoinData.obj "A" (some "Ann") none)).1

/-- `H` creates a room whose id is the empty string. -/
def sEmptyRoomHost : ServerState := (createRoomStep sH "H" (CreateData.str "")).1

/-- `H` creates room `R`. -/
def sSelfRoom : ServerState := (createRoomStep sH "H" (CreateData.obj "R" (some ""))).1

/-- ... and then `H` itself joins its own room `R`. -/
def sSelfJoined : ServerState :=
  (joinRoomStep sSelfRoom "H" (JoinData.obj "R" (some "Host") none)).1

/-- Socket `B` connects. -/
def sB : ServerState := connectStep initState "B"

/-- Sockets `B` and `H` connect. -/
def sBH : ServerState := connectStep sB "H"

/-- `H` creates a room literally named `B` — the id of another socket. -/
def sRoomNamedB : ServerState := (createRoomStep sBH "H" (CreateData.obj "B" (some ""))).1

/-- ... and a third socket `A` connects. -/
def sRoomNamedBA : ServerState := connectStep sRoomNamedB "A"

/-- Socket `A` connects. -/
def sA : ServerState := connectStep initState "A"

/-- Sockets `A` and `B` connect (both still anonymous). -/
def sAB : ServerState := connectStep sA "B"

/-- `H` creates room `A` with password `pw1`. -/
def sReassign1 : ServerState := (createRoomStep sH "H" (CreateData.obj "A" (some "pw1"))).1

/-- ... and then `H` creates a second room `B`. -/
def sReassign2 : ServerState := (createRoomStep sReassign1 "H" (CreateData.obj "B" (some ""))).1

/-- `H` owns room `A` (password `pw1`) and a fresh socket `V` connects. -/
def sReassign1V : ServerState := connectStep sReassign1 "V"

/-- `H` and `V` are connected and `H` creates the empty-string room. -/
def sEmptyRoomHV : ServerState := (createRoomStep sHV "H" (CreateData.str "")).1

/-- ... and `V` joins the empty-string room as `Ann`. -/
def sEmptyRoomViewer : ServerState :=
  (joinRoomStep sEmptyRoomHV "V" (JoinData.obj "" (some "Ann") none)).1

/-! ### Association-list lemmas -/

theorem lookupA_setA_self {α : Type} (l : List (String × α)) (k : String) (v : α) :
    lookupA (setA l k v) k = some v := by
  induction l with
  | nil => simp [setA, lookupA]
  | cons p l ih =>
    by_cases hp : p.1 = k
    · simp [setA, hp, lookupA]
    · simp [setA, hp, lookupA, ih]

theorem lookupA_setA_ne {α : Type} (l : List (String × α)) (k x : String) (v : α)
    (h : x ≠ k) : lookupA (setA l k v) x = lookupA l x := by
  have hkx : ¬ k = x := fun e => h e.symm
  induction l with
  | nil => simp [setA, lookupA, hkx]
  | cons p l ih =>
    by_cases hp : p.1 = k
    · have hpx : ¬ p.1 = x := by rw [hp]; exact hkx
      simp [setA, hp, lookupA, hpx, hkx]
    · by_cases hx : p.1 = x
      · simp [setA, hp, lookupA, hx, h, hkx]
      · simp [setA, hp, lookupA, hx, ih]

theorem lookupA_eraseA_self {α : Type} (l : List (String × α)) (k : String) :
    lookupA (eraseA l k) k = none := by
  induction l with
  | nil => simp [eraseA, lookupA]
  | cons p l ih =>
    by_cases hp : p.1 = k
    · simp [eraseA, hp, ih]
    · simp [eraseA, hp, lookupA, ih]

theorem lookupA_eraseA_ne {α : Type} (l : List (String × α)) (k x : String)
    (h : x ≠ k) : lookupA (eraseA l k) x = lookupA l x := by
  have hkx : ¬ k = x := fun e => h e.symm
  induction l with
  | nil => simp [eraseA]
  | cons p l ih =>
    by_cases hp : p.1 = k
    · have hpx : ¬ p.1 = x := by rw [hp]; exact hkx
      simp [eraseA, hp, lookupA, hpx, hkx, ih]
    · simp [eraseA, hp, lookupA, ih]

theorem lookupA_updateA_self {α : Type} (l : List (String × α)) (k : String)
    (f : α → α) : lookupA (updateA l k f) k = (lookupA l k).map f := by
  induction l with
  | nil => simp [updateA, lookupA]
  | cons p l ih =>
    by_cases hp : p.1 = k
    · simp [updateA, hp, lookupA]
    · simpa [updateA, hp, lookupA] using ih

theorem lookupA_updateA_ne {α : Type} (l : List (String × α)) (k x : String)
    (f : α → α) (h : x ≠ k) : lookupA (updateA l k f) x = lookupA l x := by
  have hkx : ¬ k = x := fun e => h e.symm
  induction l with
  | nil => simp [updateA, lookupA]
  | cons p l ih =>
    by_cases hp : p.1 = k
    · have hpx : ¬ p.1 = x := by rw [hp]; exact hkx
      simpa [updateA, hp, lookupA, hpx, hkx] using ih
    · by_cases hx : p.1 = x
      · simp [updateA, hp, lookupA, hx, h, hkx]
      · simpa [updateA, hp, lookupA, hx] using ih

theorem lookupA_mem {α : Type} (l : List (String × α)) (k : String) (v : α)
    (h : lookupA l k = some v) : (k, v) ∈ l := by
  induction l with
  | nil => simp [lookupA] at h
  | cons p l ih =>
    by_cases hp : p.1 = k
    · simp only [lookupA, if_pos hp] at h
      have hv : p.2 = v := by injection h
      have hpe : p = (k, v) := by
        obtain ⟨a, b⟩ := p
        simp only at hp hv
        rw [hp, hv]
      rw [← hpe]
      exact List.mem_cons_self _ _
    · simp only [lookupA, if_neg hp] at h
      exact List.mem_cons_of_mem _ (ih h)

theorem not_mem_keys_of_lookupA_none {α : Type} (l : List (String × α))
    (k : String) (h : lookupA l k = none) : k ∉ l.map Prod.fst := by
  induction l with
  | nil => simp
  | cons p l ih =>
    by_cases hp : p.1 = k
    · rw [lookupA, if_pos hp] at h
      exact absurd h (by simp)
    · rw [lookupA, if_neg hp] at h
      simp only [List.map_cons, List.mem_cons]
      rintro (he | he)
      · exact hp he.symm
      · exact ih h he

theorem mem_keys_setA {α : Type} (l : List (String × α)) (k a : String) (v : α)
    (h : a ∈ (setA l k v).map Prod.fst) : a = k ∨ a ∈ l.map Prod.fst := by
  induction l with
  | nil =>
    simp only [setA, List.map_cons, List.map_nil, List.mem_singleton] at h
    exact Or.inl h
  | cons p l ih =>
    by_cases hp : p.1 = k
    · rw [setA, if_pos hp] at h
      simp only [List.map_cons, List.mem_cons] at h
      rcases h with h | h
      · exact Or.inl h
      · exact Or.inr (by simp only [List.map_cons, List.mem_cons]; exact Or.inr h)
    · rw [setA, if_neg hp] at h
      simp only [List.map_cons, List.mem_cons] at h
      rcases h with h | h
      · exact Or.inr (by simp only [List.map_cons, List.mem_cons]; exact Or.inl h)
      · rcases ih h with h | h
        · exact Or.inl h
        · exact Or.inr (by simp only [List.map_cons, List.mem_cons]; exact Or.inr h)

theorem nodup_keys_setA {α : Type} (l : List (String × α)) (k : String) (v : α)
    (h : (l.map Prod.fst).Nodup) : ((setA l k v).map Prod.fst).Nodup := by
  induction l with
  | nil => simp [setA]
  | cons p l ih =>
    simp only [List.map_cons, List.nodup_cons] at h
    by_cases hp : p.1 = k
    · rw [setA, if_pos hp]
      simp only [List.map_cons, List.nodup_cons]
      exact ⟨by rw [← hp]; exact h.1, h.2⟩
    · rw [setA, if_neg hp]
      simp only [List.map_cons, List.nodup_cons]
      refine ⟨fun hmem => ?_, ih h.2⟩
      rcases mem_keys_setA l k p.1 v hmem with he | he
      · exact hp he
      · exact h.1 he

theorem eraseA_sublist {α : Type} (l : List (String × α)) (k : String) :
    (eraseA l k).Sublist l := by
  induction l with
  | nil => simp [eraseA]
  | cons p l ih =>
    by_cases hp : p.1 = k
    · rw [eraseA, if_pos hp]
      exact ih.cons p
    · rw [eraseA, if_neg hp]
      exact ih.cons₂ p

theorem nodup_keys_eraseA {α : Type} (l : List (String × α)) (k : String)
    (h : (l.map Prod.fst).Nodup) : ((eraseA l k).map Prod.fst).Nodup :=
  List.Nodup.sublist ((eraseA_sublist l k).map Prod.fst) h

theorem keys_updateA {α : Type} (l : List (String × α)) (k : String)
    (f : α → α) : (updateA l k f).map Prod.fst = l.map Prod.fst := by
  induction l with
  | nil => simp [updateA]
  | cons p l ih =>
    by_cases hp : p.1 = k
    · simpa [updateA, hp] using ih
    · simpa [updateA, hp] using ih

theorem nodup_keys_append_fresh {α : Type} (l : List (String × α)) (k : String)
    (c : α) (h : (l.map Prod.fst).Nodup) (hf : lookupA l k = none) :
    (((l ++ [(k, c)]).map Prod.fst)).Nodup := by
  have hk := not_mem_keys_of_lookupA_none l k hf
  have he : (l ++ [(k, c)]).map Prod.fst = l.map Prod.fst ++ [k] := by simp
  rw [he]
  refine List.Nodup.append h (List.nodup_singleton k) ?_
  intro a ha ha'
  simp only [List.mem_singleton] at ha'
  exact hk (ha' ▸ ha)

/-! ### Handler characterizations (shared helper lemmas) -/

theorem joinCore_notfound (s : ServerState) (sid rid nm pw : String)
    (h : lookupA s.rooms rid = none) :
    joinCore s sid rid nm pw =
      (s, [(Target.direct sid, Msg.errorMsg "Room does not exist")]) := by
  simp only [joinCore, h]

theorem joinCore_badpw (s : ServerState) (sid rid nm pw : String) (room : Room)
    (h : lookupA s.rooms rid = some room)
    (h1 : room.password ≠ "") (h2 : room.password ≠ pw) :
    joinCore s sid rid nm pw =
      (s, [(Target.direct sid, Msg.errorMsg "Incorrect room password")]) := by
  simp only [joinCore, h]
  rw [if_pos ⟨h1, h2⟩]

theorem joinCore_success (s : ServerState) (sid rid nm pw : String) (room : Room)
    (h : lookupA s.rooms rid = some room)
    (hpw : room.password = "" ∨ room.password = pw) :
    joinCore s sid rid nm pw =
      (⟨setA s.rooms rid { room with viewers := room.viewers ++ [⟨sid, nm⟩] },
        updateA s.conns sid fun c =>
          { joinSockRoom c rid with
            roomId := some rid, isHost := some false, viewerName := some nm }⟩,
       [(Target.toRoom room.host, Msg.viewerJoined sid nm),
        (Target.direct sid, Msg.roomJoined rid)]) := by
  have hcond : ¬(room.password ≠ "" ∧ room.password ≠ pw) := by
    rcases hpw with h' | h'
    · exact fun hc => hc.1 h'
    · exact fun hc => hc.2 h'
  simp only [joinCore, h]
  rw [if_neg hcond]

theorem disconnectStep_host (s : ServerState) (sid r : String) (sk : Conn) (room : Room)
    (hc : lookupA s.conns sid = some sk)
    (hr : sk.roomId = some r)
    (hne : r ≠ "")
    (hrm : lookupA s.rooms r = some room)
    (hh : sk.isHost = some true) :
    disconnectStep s sid =
      (⟨eraseA s.rooms r, eraseA s.conns sid⟩,
       [(Target.toRoom r, Msg.hostDisconnected)]) := by
  simp [disconnectStep, hc, hr, hrm, hh, hne]

theorem disconnectStep_viewer (s : ServerState) (sid r : String) (sk : Conn) (room : Room)
    (hc : lookupA s.conns sid = some sk)
    (hr : sk.roomId = some r)
    (hne : r ≠ "")
    (hrm : lookupA s.rooms r = some room)
    (hh : ¬ sk.isHost = some true)
    (hhost : room.host ≠ "") :
    disconnectStep s sid =
      (⟨setA s.rooms r { room with viewers := room.viewers.filter fun v => v.id ≠ sid },
        eraseA s.conns sid⟩,
       [(Target.toRoom room.host, Msg.viewerLeft sid (sk.viewerName.getD ""))]) := by
  simp [disconnectStep, hc, hr, hrm, hh, hne, hhost]

/-- C10: a bare-string payload behaves exactly like the object payload
with `roomId = s`, `password = ""` (and `name = "Viewer"` for join-room):
identical resulting state and identical emissions. -/
theorem string_payload_equiv (s : ServerState) (sid x : String) :
    createRoomStep s sid (CreateData.str x) =
      createRoomStep s sid (CreateData.obj x (some "")) ∧
    joinRoomStep s sid (JoinData.str x) =
      joinRoomStep s sid (JoinData.obj x (some "Viewer") (some "")) :=
  ⟨rfl, rfl⟩

/-- C4: create-room always installs `{ host: sid, password, viewers: [] }`
under the requested room id (so an immediate lookup returns exactly that),
leaves every other room untouched, and emits only `room-created{roomId}`
to the caller — in particular a colliding room id silently replaces the
previous record with no notification to anyone else. -/
theorem create_room_installs (s : ServerState) (sid : String) (d : CreateData)
    (rid pw : String) (hd : createArgs d = (rid, pw)) :
    lookupA (createRoomStep s sid d).1.rooms rid = some ⟨sid, pw, []⟩ ∧
    (∀ k, k ≠ rid → lookupA (createRoomStep s sid d).1.rooms k = lookupA s.rooms k) ∧
    (createRoomStep s sid d).2 = [(Target.direct sid, Msg.roomCreated rid)] := by
  have hstep : createRoomStep s sid d = createCore s sid rid pw := by
    simp only [createRoomStep, hd]
  rw [hstep]
  exact ⟨lookupA_setA_self s.rooms rid ⟨sid, pw, []⟩,
    fun k hk => lookupA_setA_ne s.rooms rid k ⟨sid, pw, []⟩ hk, rfl⟩

/-- C4 witness: `V` re-creates the already existing room `A` (previously
held by `H` with password `pw1`); the record is replaced and only `V` is
notified. -/
theorem create_room_installs_witness :
    createArgs (CreateData.obj "A" (some "pw2")) = ("A", "pw2") ∧
    lookupA sReassign1V.rooms "A" = some ⟨"H", "pw1", []⟩ ∧
    lookupA (createRoomStep sReassign1V "V" (CreateData.obj "A" (some "pw2"))).1.rooms "A" =
      some ⟨"V", "pw2", []⟩ ∧
    (createRoomStep sReassign1V "V" (CreateData.obj "A" (some "pw2"))).2 =
      [(Target.direct "V", Msg.roomCreated "A")] :=
  ⟨rfl, by decide,
    (create_room_installs sReassign1V "V" (CreateData.obj "A" (some "pw2")) "A" "pw2" rfl).1,
    (create_room_installs sReassign1V "V" (CreateData.obj "A" (some "pw2")) "A" "pw2" rfl).2.2⟩

/-- C1: the three outcomes of a join-room request.  Unknown room id: only
`error{Room does not exist}` to the caller and the state (room store
included) is unchanged.  Non-empty stored password that differs from the
supplied one: only `error{Incorrect room password}` to the caller and the
state is unchanged.  Otherwise exactly one entry `{id, name}` is appended
to that room's viewer list, every other room is untouched, and the server
emits `viewer-joined{viewerId, viewerName}` addressed to the host's id
and `room-joined{roomId}` to the caller. -/
theorem join_room_cases (s : ServerState) (sid : String) (d : JoinData)
    (rid nm pw : String) (hd : joinArgs d = (rid, nm, pw)) :
    (lookupA s.rooms rid = none →
      joinRoomStep s sid d =
        (s, [(Target.direct sid, Msg.errorMsg "Room does not exist")])) ∧
    (∀ room : Room, lookupA s.rooms rid = some room →
      (room.password ≠ "" → room.password ≠ pw →
        joinRoomStep s sid d =
          (s, [(Target.direct sid, Msg.errorMsg "Incorrect room password")])) ∧
      (room.password = "" ∨ room.password = pw →
        lookupA (joinRoomStep s sid d).1.rooms rid =
          some { room with viewers := room.viewers ++ [⟨sid, nm⟩] } ∧
        (∀ k, k ≠ rid →
          lookupA (joinRoomStep s sid d).1.rooms k = lookupA s.rooms k) ∧
        (joinRoomStep s sid d).2 =
          [(Target.toRoom room.host, Msg.viewerJoined sid nm),
           (Target.direct sid, Msg.roomJoined rid)])) := by
  have hstep : joinRoomStep s sid d = joinCore s sid rid nm pw := by
    simp only [joinRoomStep, hd]
  constructor
  · intro hnone
    rw [hstep, joinCore_notfound s sid rid nm pw hnone]
  · intro room hroom
    constructor
    · intro h1 h2
      rw [hstep, joinCore_badpw s sid rid nm pw room hroom h1 h2]
    · intro hpw
      rw [hstep, joinCore_success s sid rid nm pw room hroom hpw]
      exact ⟨lookupA_setA_self s.rooms rid _,
        fun k hk => lookupA_setA_ne s.rooms rid k _ hk, rfl⟩

/-- C1 witness: `V` joins the open room `A` hosted by `H`; the server
appends the single viewer entry and emits `viewer-joined` to `H` and
`room-joined` to `V`. -/
theorem join_room_cases_witness :
    lookupA sRoomA.rooms "A" = some ⟨"H", "", []⟩ ∧
    (joinRoomStep sRoomA "V" (JoinData.obj "A" (some "Ann") none)).2 =
      [(Target.toRoom "H", Msg.viewerJoined "V" "Ann"),
       (Target.direct "V", Msg.roomJoined "A")] :=
  ⟨by decide,
    (((join_room_cases sRoomA "V" (JoinData.obj "A" (some "Ann") none) "A" "Ann" ""
        rfl).2 ⟨"H", "", []⟩ (by decide)).2 (Or.inl rfl)).2.2⟩

/-- C2 counterexample: `H` hosts the existing room whose id is the empty
string and disconnects.  Because of the truthiness test
`if (roomId && rooms[roomId])`, the room record is NOT removed (a lookup
still finds it) and no `host-disconnected` is emitted at all. -/
theorem host_disconnect_empty_roomid_cex :
    lookupA sEmptyRoomHost.conns "H" = some ⟨some "", some true, none, [""]⟩ ∧
    lookupA sEmptyRoomHost.rooms "" = some ⟨"H", "", []⟩ ∧
    lookupA (disconnectStep sEmptyRoomHost "H").1.rooms "" = some ⟨"H", "", []⟩ ∧
    (disconnectStep sEmptyRoomHost "H").2 = [] := by decide

/-- C3 counterexample: a reachable state in which a room's
`hostConnectionId` also appears in that very room's viewer list — `H`
creates room `R` and then joins `R` itself; the join handler never checks
the sender's role. -/
theorem host_in_viewers_cex :
    Reachable sSelfJoined ∧
    lookupA sSelfJoined.rooms "R" = some ⟨"H", "", [⟨"H", "Host"⟩]⟩ :=
  ⟨Reachable.joinRoom sSelfRoom "H" (JoinData.obj "R" (some "Host") none)
      (Reachable.createRoom sH "H" (CreateData.obj "R" (some ""))
        (Reachable.connect initState "H" Reachable.init (by decide) (by decide))
        (by decide))
      (by decide),
    by decide⟩

/-- C5 counterexample: `io.to` is room addressing, not connection
addressing.  With a room literally named `B` (the id of socket `B`,
created by host `H`), a relay addressed to connection `B` is also
received by `H`, a connection other than the target. -/
theorem relay_extra_recipient_cex :
    (offerStep sRoomNamedBA "A" "p" "B").2 =
      [(Target.toRoom "B", Msg.offerMsg "p" "A")] ∧
    deliveredTo sRoomNamedBA (Target.toRoom "B") "B" = true ∧
    deliveredTo sRoomNamedBA (Target.toRoom "B") "H" = true ∧
    ("H" : String) ≠ "B" := by decide

/-- C6 counterexample: the relay handlers perform no role check.  `A` is
still anonymous (no `roomId`, no `isHost`), yet its offer addressed to
`B` is delivered to `B`. -/
theorem anonymous_relay_delivered_cex :
    lookupA sAB.conns "A" = some ⟨none, none, none, []⟩ ∧
    recvCount sAB (offerStep sAB "A" "p" "B").2 "B" (Msg.offerMsg "p" "A") = 1 := by
  decide

/-- C7 counterexample: join-room does not enforce once-per-connection.
`V`, already a viewer of room `A`, joins `A` again; the second join also
succeeds (same success emissions) and a duplicate viewer entry is pushed,
so connection ids are no longer unique in the viewer sequence. -/
theorem duplicate_join_cex :
    (joinRoomStep sJoined "V" (JoinData.obj "A" (some "Ann") none)).2 =
      [(Target.toRoom "H", Msg.viewerJoined "V" "Ann"),
       (Target.direct "V", Msg.roomJoined "A")] ∧
    lookupA (joinRoomStep sJoined "V" (JoinData.obj "A" (some "Ann") none)).1.rooms "A" =
      some ⟨"H", "", [⟨"V", "Ann"⟩, ⟨"V", "Ann"⟩]⟩ ∧
    ¬ ((((lookupA (joinRoomStep sJoined "V" (JoinData.obj "A" (some "Ann") none)).1.rooms
            "A").getD ⟨"", "", []⟩).viewers.map ViewerEntry.id).Nodup) := by decide

/-- C8 counterexample: `V` is a viewer of the existing empty-string room
and disconnects.  The truthiness test skips the clean-up: `V`'s viewer
entry is NOT removed and the host receives no `viewer-left`. -/
theorem viewer_disconnect_empty_roomid_cex :
    lookupA sEmptyRoomViewer.conns "V" = some ⟨some "", some false, some "Ann", [""]⟩ ∧
    lookupA sEmptyRoomViewer.rooms "" = some ⟨"H", "", [⟨"V", "Ann"⟩]⟩ ∧
    lookupA (disconnectStep sEmptyRoomViewer "V").1.rooms "" =
      some ⟨"H", "", [⟨"V", "Ann"⟩]⟩ ∧
    (disconnectStep sEmptyRoomViewer "V").2 = [] := by decide

/-- C9 counterexample: `roomId`/`role` are not immutable.  After `H`'s
create-room for `A` set `roomId = A`, a second create-room for `B` by the
same connection overwrites `roomId` to `B`. -/
theorem conn_fields_overwritten_cex :
    lookupA sReassign1.conns "H" = some ⟨some "A", some true, none, ["A"]⟩ ∧
    lookupA sReassign2.conns "H" = some ⟨some "B", some true, none, ["A", "B"]⟩ := by
  decide

/-- C5 amended: a relay message is forwarded unchanged except for the
added `from` field, addressed to the socket.io room named by the target
id, with no error to the sender and no state change.  It is received by
the target connection and, additionally, by every connection that has
joined a signaling room whose name equals the target id; a disconnected
target receives nothing (silent drop). -/
theorem relay_forward_amended (s : ServerState) (sid payload tgt x : String) (c : Conn)
    (hx : lookupA s.conns x = some c) :
    offerStep s sid payload tgt = (s, [(Target.toRoom tgt, Msg.offerMsg payload sid)]) ∧
    answerStep s sid payload tgt = (s, [(Target.toRoom tgt, Msg.answerMsg payload sid)]) ∧
    iceCandidateStep s sid payload tgt =
      (s, [(Target.toRoom tgt, Msg.iceMsg payload sid)]) ∧
    (deliveredTo s (Target.toRoom tgt) x = true ↔ (x = tgt ∨ tgt ∈ c.sockRooms)) ∧
    (∀ y, lookupA s.conns y = none → deliveredTo s (Target.toRoom tgt) y = false) := by
  refine ⟨rfl, rfl, rfl, ?_, ?_⟩
  · simp [deliveredTo, hx, memberOf]
  · intro y hy
    simp [deliveredTo, hy]

/-- C5 amended witness: in the collision state, the relay addressed to
`B` is received by `H` because `H` joined the signaling room named `B`. -/
theorem relay_forward_amended_witness :
    lookupA sRoomNamedBA.conns "H" = some ⟨some "B", some true, none, ["B"]⟩ ∧
    offerStep sRoomNamedBA "A" "p" "B" =
      (sRoomNamedBA, [(Target.toRoom "B", Msg.offerMsg "p" "A")]) ∧
    (deliveredTo sRoomNamedBA (Target.toRoom "B") "H" = true ↔
      ("H" = "B" ∨ "B" ∈ (["B"] : List String))) :=
  ⟨by decide,
    (relay_forward_amended sRoomNamedBA "A" "p" "B" "H"
        ⟨some "B", some true, none, ["B"]⟩ (by decide)).1,
    (relay_forward_amended sRoomNamedBA "A" "p" "B" "H"
        ⟨some "B", some true, none, ["B"]⟩ (by decide)).2.2.2.1⟩

/-- C6 amended: the relay handlers enforce no role precondition: a relay
event from a still-anonymous connection (all attached fields absent) is
forwarded and delivered to its connected target exactly once, just like
one from a role-assigned sender. -/
theorem anonymous_relay_delivery (s : ServerState) (sid payload tgt : String) (c : Conn)
    (hanon : lookupA s.conns sid = some ⟨none, none, none, []⟩)
    (htgt : lookupA s.conns tgt = some c) :
    recvCount s (offerStep s sid payload tgt).2 tgt (Msg.offerMsg payload sid) = 1 ∧
    recvCount s (answerStep s sid payload tgt).2 tgt (Msg.answerMsg payload sid) = 1 ∧
    recvCount s (iceCandidateStep s sid payload tgt).2 tgt (Msg.iceMsg payload sid) = 1 := by
  refine ⟨?_, ?_, ?_⟩ <;>
    simp [offerStep, answerStep, iceCandidateStep, recvCount, deliveredTo, htgt,
      memberOf, List.filter]

/-- C6 amended witness: anonymous `A` relays an answer to `B`, and `B`
receives it exactly once. -/
theorem anonymous_relay_delivery_witness :
    lookupA sAB.conns "A" = some ⟨none, none, none, []⟩ ∧
    recvCount sAB (answerStep sAB "A" "p" "B").2 "B" (Msg.answerMsg "p" "A") = 1 :=
  ⟨by decide,
    (anonymous_relay_delivery sAB "A" "p" "B" ⟨none, none, none, []⟩
        (by decide) (by decide)).2.1⟩

/-- C7 amended: each successful join (room exists, password empty or
matching) appends exactly one viewer entry `{id, name}` — the number of
entries carrying the joiner's connection id grows by exactly one.
Once-per-connection is NOT enforced, so repeated joins stack duplicate
entries (see the counterexample). -/
theorem join_appends_single_entry (s : ServerState) (sid : String) (d : JoinData)
    (rid nm pw : String) (room : Room)
    (hd : joinArgs d = (rid, nm, pw))
    (hroom : lookupA s.rooms rid = some room)
    (hpw : room.password = "" ∨ room.password = pw) :
    lookupA (joinRoomStep s sid d).1.rooms rid =
      some { room with viewers := room.viewers ++ [⟨sid, nm⟩] } ∧
    ((room.viewers ++ [(⟨sid, nm⟩ : ViewerEntry)]).filter fun v => v.id = sid).length =
      ((room.viewers.filter fun v => v.id = sid).length) + 1 := by
  have hstep : joinRoomStep s sid d = joinCore s sid rid nm pw := by
    simp only [joinRoomStep, hd]
  constructor
  · rw [hstep, joinCore_success s sid rid nm pw room hroom hpw]
    exact lookupA_setA_self s.rooms rid _
  · rw [List.filter_append]
    simp [List.filter]

/-- C7 amended witness: `V` joins room `A` a second time; exactly one more
entry with id `V` is appended. -/
theorem join_appends_single_entry_witness :
    lookupA sJoined.rooms "A" = some ⟨"H", "", [⟨"V", "Ann"⟩]⟩ ∧
    lookupA (joinRoomStep sJoined "V" (JoinData.obj "A" (some "Bea") none)).1.rooms "A" =
      some ⟨"H", "", [⟨"V", "Ann"⟩, ⟨"V", "Bea"⟩]⟩ :=
  ⟨by decide,
    (join_appends_single_entry sJoined "V" (JoinData.obj "A" (some "Bea") none)
        "A" "Bea" "" ⟨"H", "", [⟨"V", "Ann"⟩]⟩ rfl (by decide) (Or.inl rfl)).1⟩

/-- C8 amended: when a viewer with a NON-empty stored `roomId` disconnects
while its room exists (and the room's host id is a non-empty string, as
every server-assigned id is), every viewer entry whose connection id
matches the disconnecting socket is removed by one `filter` pass — all
other entries, their relative order, the room's host and password, and
every other room are unchanged — and the server emits exactly one
`viewer-left{viewerId, viewerName}` addressed to the host's id, carrying
the connection's most recent display name.  For the empty-string room id
nothing at all happens (see the counterexample). -/
theorem viewer_disconnect_amended (s : ServerState) (sid r : String) (sk : Conn)
    (room : Room)
    (hc : lookupA s.conns sid = some sk)
    (hh : ¬ sk.isHost = some true)
    (hr : sk.roomId = some r)
    (hne : r ≠ "")
    (hrm : lookupA s.rooms r = some room)
    (hhost : room.host ≠ "") :
    lookupA (disconnectStep s sid).1.rooms r =
      some { room with viewers := room.viewers.filter fun v => v.id ≠ sid } ∧
    (∀ k, k ≠ r → lookupA (disconnectStep s sid).1.rooms k = lookupA s.rooms k) ∧
    (disconnectStep s sid).2 =
      [(Target.toRoom room.host, Msg.viewerLeft sid (sk.viewerName.getD ""))] := by
  have hstep := disconnectStep_viewer s sid r sk room hc hr hne hrm hh hhost
  rw [hstep]
  exact ⟨lookupA_setA_self s.rooms r _,
    fun k hk => lookupA_setA_ne s.rooms r k _ hk, rfl⟩

/-- C8 amended witness: viewer `V` of room `A` disconnects; its entry is
removed and the host `H` is sent one `viewer-left{V, Ann}`. -/
theorem viewer_disconnect_amended_witness :
    lookupA sJoined.conns "V" = some ⟨some "A", some false, some "Ann", ["A"]⟩ ∧
    (disconnectStep sJoined "V").2 = [(Target.toRoom "H", Msg.viewerLeft "V" "Ann")] :=
  ⟨by decide,
    (viewer_disconnect_amended sJoined "V" "A" ⟨some "A", some false, some "Ann", ["A"]⟩
        ⟨"H", "", [⟨"V", "Ann"⟩]⟩ (by decide) (by decide) (by decide) (by decide)
        (by decide) (by decide)).2.2⟩

/-- C2 amended: when a host with a NON-empty stored `roomId` disconnects
while that room exists, the room record is removed in one step (an
immediate lookup finds nothing) and one `host-disconnected` is emitted,
addressed to the socket.io room carrying the room's name.  Whenever
membership in that socket.io room coincides with the stored viewer list
(true in straightforward runs, but stale subscribers of an earlier room
with the same id also remain members), every still-connected listed
viewer — and no other remaining connection — receives it exactly once.
For the empty-string room id the handler does nothing at all (see the
counterexample). -/
theorem host_disconnect_amended (s : ServerState) (sid r : String) (sk : Conn)
    (room : Room)
    (hc : lookupA s.conns sid = some sk)
    (hh : sk.isHost = some true)
    (hr : sk.roomId = some r)
    (hne : r ≠ "")
    (hrm : lookupA s.rooms r = some room)
    (hmem : ∀ p ∈ s.conns, p.1 ≠ sid →
      (memberOf p.1 p.2 r = true ↔ p.1 ∈ room.viewers.map ViewerEntry.id)) :
    lookupA (disconnectStep s sid).1.rooms r = none ∧
    (disconnectStep s sid).2 = [(Target.toRoom r, Msg.hostDisconnected)] ∧
    (∀ x, x ≠ sid →
      recvCount (disconnectStep s sid).1 (disconnectStep s sid).2 x
          Msg.hostDisconnected =
        if (lookupA s.conns x).isSome = true ∧ x ∈ room.viewers.map ViewerEntry.id
        then 1 else 0) := by
  have hstep := disconnectStep_host s sid r sk room hc hr hne hrm hh
  rw [hstep]
  refine ⟨lookupA_eraseA_self s.rooms r, rfl, ?_⟩
  intro x hx
  have hlk : lookupA (eraseA s.conns sid) x = lookupA s.conns x :=
    lookupA_eraseA_ne s.conns sid x hx
  cases hcase : lookupA s.conns x with
  | none =>
    have hdel : deliveredTo ⟨eraseA s.rooms r, eraseA s.conns sid⟩
        (Target.toRoom r) x = false := by
      simp [deliveredTo, hlk, hcase]
    simp [recvCount, List.filter, hdel, hcase]
  | some c =>
    have hmem' := hmem (x, c) (lookupA_mem s.conns x c hcase) hx
    by_cases hv : x ∈ room.viewers.map ViewerEntry.id
    · have hdel : deliveredTo ⟨eraseA s.rooms r, eraseA s.conns sid⟩
          (Target.toRoom r) x = true := by
        simp only [deliveredTo, hlk, hcase]
        exact hmem'.mpr hv
      simp [recvCount, List.filter, hdel, hcase, hv]
    · have hdel : deliveredTo ⟨eraseA s.rooms r, eraseA s.conns sid⟩
          (Target.toRoom r) x = false := by
        simp only [deliveredTo, hlk, hcase]
        cases hmb : memberOf x c r
        · rfl
        · exact absurd (hmem'.mp hmb) hv
      simp [recvCount, List.filter, hdel, hcase, hv]

/-- C2 amended witness: host `H` of room `A` (single viewer `V`)
disconnects; the room is gone and `V` receives exactly one
`host-disconnected`. -/
theorem host_disconnect_amended_witness :
    lookupA sJoined.conns "H" = some ⟨some "A", some true, none, ["A"]⟩ ∧
    recvCount (disconnectStep sJoined "H").1 (disconnectStep sJoined "H").2 "V"
        Msg.hostDisconnected =
      (if (lookupA sJoined.conns "V").isSome = true ∧
          "V" ∈ (([⟨"V", "Ann"⟩] : List ViewerEntry).map ViewerEntry.id)
       then 1 else 0) :=
  ⟨by decide,
    (host_disconnect_amended sJoined "H" "A" ⟨some "A", some true, none, ["A"]⟩
        ⟨"H", "", [⟨"V", "Ann"⟩]⟩ (by decide) (by decide) (by decide) (by decide)
        (by decide) (by decide)).2.2 "V" (by decide)⟩

/-- C9 amended: the connection fields are (re)assigned by EVERY
create-room and every successful join-room — they are not write-once.  A
create-room sets `roomId`/`isHost` (overwriting any previous values), a
successful join-room sets `roomId`/`isHost`/`viewerName`, and a failed
join (unknown room) leaves the state unchanged. -/
theorem conn_fields_reassigned (s : ServerState) (sid : String) (c : Conn)
    (hc : lookupA s.conns sid = some c) :
    (∀ d rid pw, createArgs d = (rid, pw) →
      lookupA (createRoomStep s sid d).1.conns sid =
        some { joinSockRoom c rid with roomId := some rid, isHost := some true }) ∧
    (∀ d rid nm pw room, joinArgs d = (rid, nm, pw) →
      lookupA s.rooms rid = some room →
      (room.password = "" ∨ room.password = pw) →
      lookupA (joinRoomStep s sid d).1.conns sid =
        some { joinSockRoom c rid with
               roomId := some rid, isHost := some false, viewerName := some nm }) ∧
    (∀ d rid nm pw, joinArgs d = (rid, nm, pw) →
      lookupA s.rooms rid = none → (joinRoomStep s sid d).1 = s) := by
  refine ⟨?_, ?_, ?_⟩
  · intro d rid pw hd
    have hstep : createRoomStep s sid d = createCore s sid rid pw := by
      simp only [createRoomStep, hd]
    rw [hstep]
    have h2 := lookupA_updateA_self s.conns sid
      (fun c => { joinSockRoom c rid with roomId := some rid, isHost := some true })
    exact h2.trans (by rw [hc]; rfl)
  · intro d rid nm pw room hd hroom hpw
    have hstep : joinRoomStep s sid d = joinCore s sid rid nm pw := by
      simp only [joinRoomStep, hd]
    rw [hstep, joinCore_success s sid rid nm pw room hroom hpw]
    have h2 := lookupA_updateA_self s.conns sid
      (fun c => { joinSockRoom c rid with
        roomId := some rid, isHost := some false, viewerName := some nm })
    exact h2.trans (by rw [hc]; rfl)
  · intro d rid nm pw hd hnone
    have hstep : joinRoomStep s sid d = joinCore s sid rid nm pw := by
      simp only [joinRoomStep, hd]
    rw [hstep, joinCore_notfound s sid rid nm pw hnone]

/-- C9 amended witness: `H` already carries `roomId = A, isHost = true`;
its second create-room overwrites the fields to `roomId = B`. -/
theorem conn_fields_reassigned_witness :
    lookupA sReassign1.conns "H" = some ⟨some "A", some true, none, ["A"]⟩ ∧
    lookupA (createRoomStep sReassign1 "H" (CreateData.obj "B" (some ""))).1.conns "H" =
      some ⟨some "B", some true, none, ["A", "B"]⟩ :=
  ⟨by decide,
    (conn_fields_reassigned sReassign1 "H" ⟨some "A", some true, none, ["A"]⟩
        (by decide)).1 (CreateData.obj "B" (some "")) "B" "" rfl⟩

/-- C3 amended: in every reachable state the room ids are unique keys of
the room store and the connection ids are unique keys of the registry
(each room trivially stores exactly one host, being a record with a
single `host` field).  The remaining part of the original invariant is
false: `hostConnectionId` CAN appear in a viewer list, because join-room
never checks the sender's role (see the counterexample, where a host
joins its own room). -/
theorem reachable_keys_nodup (s : ServerState) (h : Reachable s) :
    (s.rooms.map Prod.fst).Nodup ∧ (s.conns.map Prod.fst).Nodup := by
  induction h with
  | init => exact ⟨List.nodup_nil, List.nodup_nil⟩
  | connect s sid hs hne hfresh ih =>
    exact ⟨ih.1, nodup_keys_append_fresh s.conns sid _ ih.2 hfresh⟩
  | createRoom s sid d hs hsome ih =>
    rcases hargs : createArgs d with ⟨rid, pw⟩
    have hstep : createRoomStep s sid d = createCore s sid rid pw := by
      simp only [createRoomStep, hargs]
    rw [hstep]
    constructor
    · exact nodup_keys_setA s.rooms rid ⟨sid, pw, []⟩ ih.1
    · have hnd : ((updateA s.conns sid fun c =>
          { joinSockRoom c rid with
            roomId := some rid, isHost := some true }).map Prod.fst).Nodup := by
        rw [keys_updateA]; exact ih.2
      exact hnd
  | joinRoom s sid d hs hsome ih =>
    rcases hargs : joinArgs d with ⟨rid, nm, pw⟩
    have hstep : joinRoomStep s sid d = joinCore s sid rid nm pw := by
      simp only [joinRoomStep, hargs]
    rcases hlk : lookupA s.rooms rid with _ | room
    · rw [hstep, joinCore_notfound s sid rid nm pw hlk]
      exact ih
    · by_cases hpw : room.password ≠ "" ∧ room.password ≠ pw
      · rw [hstep, joinCore_badpw s sid rid nm pw room hlk hpw.1 hpw.2]
        exact ih
      · have hpw' : room.password = "" ∨ room.password = pw := by
          by_cases h0 : room.password = ""
          · exact Or.inl h0
          · right
            by_contra hne2
            exact hpw ⟨h0, hne2⟩
        rw [hstep, joinCore_success s sid rid nm pw room hlk hpw']
        constructor
        · exact nodup_keys_setA s.rooms rid _ ih.1
        · have hnd : ((updateA s.conns sid fun c =>
              { joinSockRoom c rid with
                roomId := some rid, isHost := some false,
                viewerName := some nm }).map Prod.fst).Nodup := by
            rw [keys_updateA]; exact ih.2
          exact hnd
  | disconnect s sid hs ih =>
    rcases hck : lookupA s.conns sid with _ | sk
    · have hst : (disconnectStep s sid).1 = ⟨s.rooms, eraseA s.conns sid⟩ := by
        simp [disconnectStep, hck]
      rw [hst]
      exact ⟨ih.1, nodup_keys_eraseA s.conns sid ih.2⟩
    · rcases hrid : sk.roomId with _ | r
      · have hst : (disconnectStep s sid).1 = ⟨s.rooms, eraseA s.conns sid⟩ := by
          simp [disconnectStep, hck, hrid]
        rw [hst]
        exact ⟨ih.1, nodup_keys_eraseA s.conns sid ih.2⟩
      · by_cases hne : r = ""
        · have hst : (disconnectStep s sid).1 = ⟨s.rooms, eraseA s.conns sid⟩ := by
            simp [disconnectStep, hck, hrid, hne]
          rw [hst]
          exact ⟨ih.1, nodup_keys_eraseA s.conns sid ih.2⟩
        · rcases hrm : lookupA s.rooms r with _ | room
          · have hst : (disconnectStep s sid).1 = ⟨s.rooms, eraseA s.conns sid⟩ := by
              simp [disconnectStep, hck, hrid, hne, hrm]
            rw [hst]
            exact ⟨ih.1, nodup_keys_eraseA s.conns sid ih.2⟩
          · by_cases hh : sk.isHost = some true
            · have hst : (disconnectStep s sid).1 =
                  ⟨eraseA s.rooms r, eraseA s.conns sid⟩ := by
                rw [disconnectStep_host s sid r sk room hck hrid hne hrm hh]
              rw [hst]
              exact ⟨nodup_keys_eraseA s.rooms r ih.1,
                nodup_keys_eraseA s.conns sid ih.2⟩
            · have hst : (disconnectStep s sid).1 =
                  ⟨setA s.rooms r
                    { room with viewers := room.viewers.filter fun v => v.id ≠ sid },
                   eraseA s.conns sid⟩ := by
                simp [disconnectStep, hck, hrid, hne, hrm, hh]
              rw [hst]
              exact ⟨nodup_keys_setA s.rooms r _ ih.1,
                nodup_keys_eraseA s.conns sid ih.2⟩

/-- C3 amended witness: the invariant evaluated in the reachable state
where `H` hosts room `A` and `V` is its viewer. -/
theorem reachable_keys_nodup_witness :
    (sJoined.rooms.map Prod.fst).Nodup ∧ (sJoined.conns.map Prod.fst).Nodup :=
  reachable_keys_nodup sJoined
    (Reachable.joinRoom sRoomA "V" (JoinData.obj "A" (some "Ann") none)
      (Reachable.createRoom sHV "H" (CreateData.obj "A" (some ""))
        (Reachable.connect sH "V"
          (Reachable.connect initState "H" Reachable.init (by decide) (by decide))
          (by decide) (by decide))
        (by decide))
      (by decide))

end LiveStream
